import Mathlib

/-!
Verification of the crowding-data normalization and query pipeline
(`src/data.py` together with the module-level load flow of `src/app.py`).

The Python source operates on pandas data frames.  The shallow embedding
below models:
  * a raw wide table (`RawTable`): the column headers and the rows of cells,
    all as strings (the state of the frame right after CSV decoding);
  * the normalizer `load_data` (column-name stripping, time-header parsing,
    wide-to-long melt, numeric coercion of crowding cells, `time_to_minutes`,
    dropping of rows with missing values, and the empty-result error);
  * the query functions `get_filtered_data` and `calculate_ranking`.

Strings are manipulated through their character lists; the helper functions
below reproduce the Python string primitives used by the source
(`str.strip`, `str.split`, `str.replace`, `str.zfill`, `int`, `float`).
-/

/-! ### Python string primitives -/

/-- Python `str.strip()`: remove leading and trailing whitespace characters. -/
def pyStrip (cs : List Char) : List Char :=
  ((cs.dropWhile Char.isWhitespace).reverse.dropWhile Char.isWhitespace).reverse

/-- Python `s.split(sep)` for a one-character separator `sep`: split into the
(possibly empty) chunks between occurrences of `sep`. -/
def splitOnChar (sep : Char) : List Char → List (List Char)
  | [] => [[]]
  | c :: rest =>
    if c = sep then [] :: splitOnChar sep rest
    else
      match splitOnChar sep rest with
      | [] => [[c]]
      | g :: gs => (c :: g) :: gs

/-- Value of a decimal-digit character list read most-significant first
(callers guard that all characters are digits). -/
def natOfDigits (cs : List Char) : Nat :=
  cs.foldl (fun a c => a * 10 + (c.toNat - 48)) 0

/-- Parse a non-empty all-digit character list as a natural number,
`none` otherwise. -/
def parseDigits (cs : List Char) : Option Nat :=
  if cs ≠ [] ∧ cs.all Char.isDigit then some (natOfDigits cs) else none

/-- Sign handling of Python `int(s)`: an optional leading sign, then decimal
digits. -/
def pyIntSigned : List Char → Option Int
  | [] => none
  | c :: rest =>
    if c = '-' then (parseDigits rest).map (fun n => -(Int.ofNat n))
    else if c = '+' then (parseDigits rest).map (fun n => Int.ofNat n)
    else (parseDigits (c :: rest)).map (fun n => Int.ofNat n)

/-- Python `int(s)` on the decimal fragment used by the pipeline: optional
surrounding whitespace, optional sign, then decimal digits. -/
def pyInt (cs0 : List Char) : Option Int :=
  pyIntSigned (pyStrip cs0)

/-- Unsigned decimal numeral with an optional decimal point, as a
numerator/denominator pair. -/
def pyFloatParts (cs : List Char) : Option (Nat × Nat) :=
  match splitOnChar '.' cs with
  | [ip] => (parseDigits ip).map (fun n => (n, 1))
  | [ip, fp] =>
    if ip.isEmpty && fp.isEmpty then none
    else if ip.all Char.isDigit && fp.all Char.isDigit then
      some (natOfDigits ip * 10 ^ fp.length + natOfDigits fp, 10 ^ fp.length)
    else none
  | _ => none

/-- Python `float(s)` (as invoked by `pd.to_numeric`) on the decimal-numeral
fragment used by the pipeline: optional sign, digits with an optional decimal
point, as an exact rational. -/
def pyFloat (cs : List Char) : Option Rat :=
  match cs with
  | [] => none
  | c :: rest =>
    if c = '-' then (pyFloatParts rest).map (fun p => mkRat (-(Int.ofNat p.1)) p.2)
    else if c = '+' then (pyFloatParts rest).map (fun p => mkRat (Int.ofNat p.1) p.2)
    else (pyFloatParts (c :: rest)).map (fun p => mkRat (Int.ofNat p.1) p.2)

/-- Python `s.zfill(w)`: left-pad with zeros to width `w`, keeping a leading
sign character in front of the padding. -/
def zfill (w : Nat) (cs : List Char) : List Char :=
  match cs with
  | [] => List.replicate w '0'
  | c :: rest =>
    if c = '-' ∨ c = '+' then c :: (List.replicate (w - (rest.length + 1)) '0' ++ rest)
    else List.replicate (w - cs.length) '0' ++ cs

/-- `str.strip()` lifted to `String`. -/
def stripStr (s : String) : String := ⟨pyStrip s.data⟩

/-! ### Normalizer (`load_data` in `src/data.py`) -/

/-- Header-to-label conversion of `load_data` (data.py lines 75-83): replace
the hour marker by a colon, delete the minute marker, strip, split on the
colon; when the split has exactly two parts, zero-fill each part to width 2
and join with a colon.  Headers with any other shape get no entry in the
mapping (and their long rows are later dropped). -/
def cleanHeader (col : String) : List Char :=
  pyStrip ((col.data.map (fun c => if c = '시' then ':' else c)).filter (fun c => c != '분'))

/-- Continuation of the header mapping: split the cleaned header on the
colon; exactly two parts become the zero-filled label. -/
def headerLabel (col : String) : Option String :=
  match splitOnChar ':' (cleanHeader col) with
  | [hs, ms] => some ⟨zfill 2 hs ++ ':' :: zfill 2 ms⟩
  | _ => none

/-- `time_to_minutes` (data.py lines 103-124) on a present (non-NaN) label:
split on the colon into exactly an hour and a minute part, parse both as
integers, treat hour 0 as 24 (`MIDNIGHT_HOUR`), and return hour*60+minute.
Any parse failure yields `None`. -/
def time_to_minutes (t : String) : Option Int :=
  match splitOnChar ':' t.data with
  | [hs, ms] =>
    match pyInt hs, pyInt ms with
    | some h, some m => some ((if h = 0 then 24 else h) * 60 + m)
    | _, _ => none
  | _ => none

/-- The raw wide table right after CSV decoding: the column headers and the
rows, each row a list of cell strings aligned with the headers. -/
structure RawTable where
  cols : List String
  rows : List (List String)

/-- One row of the melted (long-format) frame, before value coercion: the
five identifier cells (by fixed position: operator, line, station code,
station name, direction), the originating time-column header, and the raw
crowding cell. -/
structure LongRow where
  op : String
  line : String
  code : String
  name : String
  dir : String
  time_original : String
  crowding_raw : String
deriving DecidableEq

/-- One canonical record: a surviving long row with the coerced crowding
value, the normalized `time` label and the `time_order` sort key. -/
structure Record where
  op : String
  line : String
  code : String
  name : String
  dir : String
  time_original : String
  crowding : Rat
  time : String
  time_order : Int
deriving DecidableEq

/-- Wide-to-long reshape (data.py lines 67-91): column names are stripped,
the first five columns are identifiers, the rest are time buckets; `melt`
emits, for each time column in order, one long row per table row.  A missing
cell (ragged row) behaves like pandas NaN: its string form parses as no
number, so the row is dropped later. -/
def meltRows (t : RawTable) : List LongRow :=
  (((t.cols.map stripStr).drop 5).enum).flatMap (fun p =>
    t.rows.map (fun r =>
      { op := r.getD 0 "", line := r.getD 1 "", code := r.getD 2 "", name := r.getD 3 "",
        dir := r.getD 4 "", time_original := p.2, crowding_raw := r.getD (5 + p.1) "nan" }))

/-- Crowding-value coercion (data.py lines 96-100): strip surrounding
whitespace, delete all thousands-separator commas, then parse as a number;
failures coerce to missing. -/
def parseCrowding (s : String) : Option Rat :=
  pyFloat ((pyStrip s.data).filter (fun c => c != ','))

/-- Per-long-row normalization (data.py lines 93-130): map the header through
the label table, coerce the crowding cell, compute `time_order` from the
label; the row survives (`some`) exactly when none of `crowding`, `time`,
`time_order` is missing, which is the `dropna` of line 130. -/
def normStep (lr : LongRow) : Option Record :=
  match headerLabel lr.time_original, parseCrowding lr.crowding_raw with
  | some tl, some c =>
    match time_to_minutes tl with
    | some o =>
      some { op := lr.op, line := lr.line, code := lr.code, name := lr.name, dir := lr.dir,
             time_original := lr.time_original, crowding := c, time := tl, time_order := o }
    | none => none
  | _, _ => none

/-- The canonical dataset produced from a raw table. -/
def normRows (t : RawTable) : List Record :=
  (meltRows t).filterMap normStep

/-- `load_data` after a successful CSV decode (data.py lines 67-142): build
the canonical rows; if none survive, show the "no valid data" error and
return `None` (data.py lines 133-135), otherwise return the long frame. -/
def load_data (t : RawTable) : Option (List Record) :=
  let rs := normRows t
  if rs.isEmpty then none else some rs

/-- Outcome of the module-level load flow of `src/app.py` (lines 31-40),
distinguishing which fatal report stopped the app. -/
inductive AppOutcome where
  | emptyDataError : AppOutcome
  | schemaError : AppOutcome
  | ok : List Record → AppOutcome
deriving DecidableEq

/-- Column count of the long frame returned by `load_data`: the (at most
five) identifier columns plus `time_original`, `crowding`, `time`,
`time_order`. -/
def longColumnCount (t : RawTable) : Nat :=
  min 5 t.cols.length + 4

/-- Module-level load flow of `src/app.py` lines 31-40: stop on a failed
load; stop with the minimum-column message when the returned frame has fewer
than 5 columns; otherwise proceed with the frame. -/
def app_load (t : RawTable) : AppOutcome :=
  match load_data t with
  | none => .emptyDataError
  | some rs => if longColumnCount t < 5 then .schemaError else .ok rs

/-! ### Spec-side constructors for labels and headers

These build the concrete strings the claims quantify over: a decimal digit
character, the 1-or-2-digit decimal rendering of a clock number, the
zero-padded "HH:MM" label shape produced by the normalizer, and the raw
header shape "<hour>시<minute>분". -/

/-- The decimal digit character of `n` (callers keep `n < 10`; larger values
collapse to the last branch). -/
def digitChar (n : Nat) : Char :=
  if n = 0 then '0' else if n = 1 then '1' else if n = 2 then '2' else if n = 3 then '3'
  else if n = 4 then '4' else if n = 5 then '5' else if n = 6 then '6' else if n = 7 then '7'
  else if n = 8 then '8' else '9'

/-- Two-digit zero-padded decimal rendering of `n < 100`. -/
def render2 (n : Nat) : List Char := [digitChar (n / 10), digitChar (n % 10)]

/-- Unpadded decimal rendering of `n < 100` (one digit when `n < 10`). -/
def renderNat (n : Nat) : List Char := if n < 10 then [digitChar n] else render2 n

/-- The "HH:MM" label with both fields zero-padded to two digits. -/
def timeLabel (h m : Nat) : String := ⟨render2 h ++ ':' :: render2 m⟩

/-- A raw time-bucket column header of the locale shape "<hour>시<minute>분". -/
def mkHeader (h m : Nat) : String := ⟨renderNat h ++ '시' :: (renderNat m ++ ['분'])⟩

/-- Table for the C2 witness: one header that does not decompose and one
well-formed time header. -/
def c2table : RawTable :=
  { cols := ["운영기관", "호선", "역번호", "역명", "운행구분", "비고", "5시30분"],
    rows := [["SeoulMetro", "1호선", "150", "StationA", "상행", "x", "23"]] }

/-- The single canonical record surviving from `c2table`. -/
def c2rec : Record :=
  { op := "SeoulMetro", line := "1호선", code := "150", name := "StationA", dir := "상행",
    time_original := "5시30분", crowding := mkRat 23 1, time := "05:30", time_order := 330 }

/-- Table for the C6 witness: one parseable and one unparseable crowding
cell. -/
def c6table : RawTable :=
  { cols := ["운영기관", "호선", "역번호", "역명", "운행구분", "5시30분"],
    rows := [["S", "1호선", "150", "A", "상행", "23"],
             ["S", "1호선", "151", "B", "상행", "정보없음"]] }

/-- The melted row of `c6table` with the unparseable cell. -/
def c6lrBad : LongRow :=
  { op := "S", line := "1호선", code := "151", name := "B", dir := "상행",
    time_original := "5시30분", crowding_raw := "정보없음" }

/-- The canonical record surviving from `c6table`. -/
def c6rec : Record :=
  { op := "S", line := "1호선", code := "150", name := "A", dir := "상행",
    time_original := "5시30분", crowding := mkRat 23 1, time := "05:30", time_order := 330 }

/-! ### Concrete example tables and records used by the claim instances -/

/-- Table whose single crowding cell parses to a negative number. -/
def c9table : RawTable :=
  { cols := ["운영기관", "호선", "역번호", "역명", "운행구분", "5시30분"],
    rows := [["S", "1호선", "150", "A", "상행", "-5"]] }

/-- Table with non-negative readings, for the C9 witness. -/
def c9posTable : RawTable :=
  { cols := ["운영기관", "호선", "역번호", "역명", "운행구분", "5시30분"],
    rows := [["S", "1호선", "150", "A", "상행", "34.5"]] }

/-- The canonical record surviving from `c9posTable`. -/
def c9posRec : Record :=
  { op := "S", line := "1호선", code := "150", name := "A", dir := "상행",
    time_original := "5시30분", crowding := mkRat 69 2, time := "05:30", time_order := 330 }

/-- Table whose only crowding cell is non-numeric placeholder text. -/
def c7table : RawTable :=
  { cols := ["운영기관", "호선", "역번호", "역명", "운행구분", "5시30분"],
    rows := [["S", "1호선", "150", "A", "상행", "없음"]] }

/-- A five-column table (identifiers only, no time bucket) with a data
row. -/
def c5table : RawTable :=
  { cols := ["운영기관", "호선", "역번호", "역명", "운행구분"],
    rows := [["S", "1호선", "150", "A", "상행"]] }

/-- Table producing two records with the same label, for the C10 witness. -/
def c10table : RawTable :=
  { cols := ["운영기관", "호선", "역번호", "역명", "운행구분", "5시30분"],
    rows := [["S", "1호선", "150", "A", "상행", "10"],
             ["S", "1호선", "151", "B", "상행", "20"]] }

/-- First record of `c10table`. -/
def c10recA : Record :=
  { op := "S", line := "1호선", code := "150", name := "A", dir := "상행",
    time_original := "5시30분", crowding := mkRat 10 1, time := "05:30", time_order := 330 }

/-- Second record of `c10table`. -/
def c10recB : Record :=
  { op := "S", line := "1호선", code := "151", name := "B", dir := "상행",
    time_original := "5시30분", crowding := mkRat 20 1, time := "05:30", time_order := 330 }

/-! ### Query engine: `get_filtered_data` (data.py lines 145-206) -/

/-- Line filter (data.py lines 172-177): exact match on the line column when
a non-empty line is given (Python truthiness: `None` and the empty string
skip the filter). -/
def lineFilter (rs : List Record) (lineQ : Option String) : List Record :=
  match lineQ with
  | some l => if l = "" then rs else rs.filter (fun r => r.line == l)
  | none => rs

/-- Direction filter (data.py lines 179-184): exact match on the direction
column when a direction other than the "전체" sentinel is given. -/
def dirFilter (rs : List Record) (dirQ : Option String) : List Record :=
  match dirQ with
  | some d => if d = "" ∨ d = "전체" then rs else rs.filter (fun r => r.dir == d)
  | none => rs

/-- The line-and-direction-filtered subset (the state of `df_filtered` just
before the time-range block).  The source's defensive column-count checks
always pass on the canonical frame, whose column layout is fixed. -/
def lineDirFilter (rs : List Record) (lineQ dirQ : Option String) : List Record :=
  dirFilter (lineFilter rs lineQ) dirQ

/-- `get_filtered_data` (data.py lines 145-206).  The time bounds are
resolved to the `time_order` of the first record of the current subset
carrying each label (`.iloc[0]`); when either lookup comes up empty the time
restriction is skipped.  The boolean component records whether any
`st.warning` was reported by the function: the source contains no warning
call (the `except` clause is a bare `pass`), so it is `false` on every
path. -/
def get_filtered_data (rs : List Record) (lineQ dirQ : Option String)
    (timeRange : Option (String × String)) : List Record × Bool :=
  if rs.isEmpty then ([], false) else
  match timeRange with
  | none => (lineDirFilter rs lineQ dirQ, false)
  | some (s, e) =>
    if (lineDirFilter rs lineQ dirQ).isEmpty then (lineDirFilter rs lineQ dirQ, false)
    else
      match (lineDirFilter rs lineQ dirQ).find? (fun r => r.time == s),
          (lineDirFilter rs lineQ dirQ).find? (fun r => r.time == e) with
      | some rStart, some rEnd =>
        ((lineDirFilter rs lineQ dirQ).filter (fun r =>
          decide (rStart.time_order ≤ r.time_order) &&
            decide (r.time_order ≤ rEnd.time_order)), false)
      | _, _ => (lineDirFilter rs lineQ dirQ, false)

/-- Records for the C8 example subset. -/
def c8recA : Record :=
  { op := "S", line := "1호선", code := "150", name := "A", dir := "상행",
    time_original := "5시30분", crowding := mkRat 10 1, time := "05:30", time_order := 330 }

/-- Second record for the C8 example subset. -/
def c8recB : Record :=
  { op := "S", line := "1호선", code := "150", name := "A", dir := "상행",
    time_original := "6시0분", crowding := mkRat 20 1, time := "06:00", time_order := 360 }

/-- A small canonical subset for exercising the filter. -/
def c8data : List Record := [c8recA, c8recB]

/-! ### Ranking (`calculate_ranking`, data.py lines 209-275)

pandas `groupby(sort=True)` orders groups by ascending key — Python tuple
comparison, i.e. lexicographic with code-point string comparison.  The
comparison is embedded below as a structural boolean on character lists. -/

/-- Code-point lexicographic strict order on character lists (Python string
comparison). -/
def strLtB : List Char → List Char → Bool
  | [], [] => false
  | [], _ :: _ => true
  | _ :: _, [] => false
  | a :: as, b :: bs =>
    if a < b then true
    else if b < a then false
    else strLtB as bs

/-- Python string `<`. -/
def sLt (a b : String) : Bool := strLtB a.data b.data

/-- Python tuple `<` on (station name, station code, direction) keys:
lexicographic, comparing strings by code point. -/
def keyLt (a b : String × String × String) : Prop :=
  sLt a.1 b.1 = true ∨
    (a.1 = b.1 ∧ (sLt a.2.1 b.2.1 = true ∨
      (a.2.1 = b.2.1 ∧ sLt a.2.2 b.2.2 = true)))

/-- Reflexive key order. -/
def keyLe (a b : String × String × String) : Prop := keyLt a b ∨ a = b

instance (a b : String × String × String) : Decidable (keyLt a b) := by
  unfold keyLt
  infer_instance

instance (a b : String × String × String) : Decidable (keyLe a b) := by
  unfold keyLe
  infer_instance

/-- The group key of a record: (station name, station code, direction) — the
triple `calculate_ranking` groups by. -/
def keyOf (r : Record) : String × String × String := (r.name, r.code, r.dir)

/-- The sorted distinct group keys, as ordered by pandas
`groupby(sort=True)`.  (`dedup` keeps one copy of each key; after sorting,
the result is the ascending list of distinct keys, which is exactly the
groupby ordering.) -/
def groupKeys (rs : List Record) : List (String × String × String) :=
  List.insertionSort keyLe ((rs.map keyOf).dedup)

/-- The rows of one group. -/
def groupOf (rs : List Record) (k : String × String × String) : List Record :=
  rs.filter (fun r => decide (keyOf r = k))

/-- The pandas `max` aggregate over a group's crowding (callers use it on
non-empty lists only). -/
def crowdMax : List Record → Rat
  | [] => 0
  | r :: l => l.foldl (fun acc x => max acc x.crowding) r.crowding

/-- Sum of crowding values, for the `mean` aggregate. -/
def crowdSum (l : List Record) : Rat :=
  l.foldl (fun acc x => acc + x.crowding) 0

/-- The lookup set of `get_peak_time` (data.py lines 256-260): rows agreeing
with the group on station name and direction — the station-code column is
not part of the lookup. -/
def matchSet (rs : List Record) (n d : String) : List Record :=
  rs.filter (fun r => r.name == n && r.dir == d)

/-- `idxmax` followed by `.loc[..., 'time']` (data.py lines 261-262): the
time label of the first row, in frame order, attaining the maximum crowding;
`None` when the lookup set is empty. -/
def firstMaxTime (l : List Record) : Option String :=
  match l with
  | [] => none
  | _ => (l.find? (fun r => decide (r.crowding = crowdMax l))).map (fun r => r.time)

/-- One row of the aggregated ranking frame (data.py lines 244-267), before
sorting and truncation. -/
structure RankRow where
  name : String
  code : String
  dir : String
  peak : Rat
  avg : Rat
  peak_time : Option String
deriving DecidableEq

/-- The key of an aggregated row. -/
def rrKey (r : RankRow) : String × String × String := (r.name, r.code, r.dir)

/-- The aggregation for one group key: `peak` and `avg` over the group's own
rows, `peak_time` over the name-and-direction lookup set. -/
def mkRankRow (rs : List Record) (k : String × String × String) : RankRow :=
  { name := k.1, code := k.2.1, dir := k.2.2,
    peak := crowdMax (groupOf rs k),
    avg := crowdSum (groupOf rs k) / mkRat (Int.ofNat (groupOf rs k).length) 1,
    peak_time := firstMaxTime (matchSet rs k.1 k.2.2) }

/-- Comparison used by `sort_values('peak', ...)`. -/
def peakLe (a b : RankRow) : Prop := a.peak ≤ b.peak

instance (a b : RankRow) : Decidable (peakLe a b) := by
  unfold peakLe
  infer_instance

/-- A ranking row with its assigned rank (the inserted `순위` column). -/
structure RankedRow extends RankRow where
  rank : Nat
deriving DecidableEq

/-- `ranking.insert(0, '순위', range(1, len+1))`: attach ranks i, i+1, ... -/
def addRanks : Nat → List RankRow → List RankedRow
  | _, [] => []
  | i, r :: l => { toRankRow := r, rank := i } :: addRanks (i + 1) l

/-- `calculate_ranking` (data.py lines 209-275): aggregate per sorted group
key, sort by peak descending, truncate to `top_n`, attach ranks 1..k.
`sort_values('peak', ascending=False)` is pandas `nargsort`: an ascending
argsort (numpy's default kind, which is not stable in general) whose index
array is then reversed.  To stay executable the embedding fixes one
realization of the implementation-defined order among equal peaks — the
stable insertion-sort behavior numpy exhibits on small arrays — and no
theorem below relies on that tie order: the rank and order guarantees are
also proved for every peak-descending permutation of the aggregated rows. -/
def calculate_ranking (rs : List Record) (top_n : Nat) : List RankedRow :=
  if rs.isEmpty then [] else
  addRanks 1 (((((groupKeys rs).map (mkRankRow rs)).insertionSort peakLe).reverse).take top_n)

/-- Two stations with equal peaks, first-encountered "AAA" before "BBB". -/
def c3table : RawTable :=
  { cols := ["운영기관", "호선", "역번호", "역명", "운행구분", "7시0분"],
    rows := [["S", "1호선", "1", "AAA", "상행", "10"],
             ["S", "1호선", "2", "BBB", "상행", "10"]] }

/-- Table with two groups of distinct peaks, for the C3 witness. -/
def c3wtable : RawTable :=
  { cols := ["운영기관", "호선", "역번호", "역명", "운행구분", "7시0분"],
    rows := [["S", "1호선", "1", "A", "상행", "30"],
             ["S", "1호선", "2", "B", "상행", "10"]] }

/-- One group whose two tied-maximum rows appear in non-chronological frame
order ("23:00" before "07:00"). -/
def c4table : RawTable :=
  { cols := ["운영기관", "호선", "역번호", "역명", "운행구분", "23시0분", "7시0분"],
    rows := [["S", "1호선", "150", "A", "상행", "50", "50"]] }

/-- Two station codes sharing a name and direction: the peak-time lookup
ignores the code column. -/
def c4btable : RawTable :=
  { cols := ["운영기관", "호선", "역번호", "역명", "운행구분", "7시0분", "8시0분"],
    rows := [["S", "1호선", "1", "A", "상행", "10", "11"],
             ["S", "1호선", "2", "A", "상행", "99", "5"]] }

/-- Table with one group whose rows appear in chronological order, for the
C4 witness. -/
def c4wtable : RawTable :=
  { cols := ["운영기관", "호선", "역번호", "역명", "운행구분", "7시0분", "8시0분"],
    rows := [["S", "1호선", "150", "A", "상행", "10", "30"]] }

/-! ### Properties and claim theorems -/

/-! ### Character-level lemmas -/

theorem digitChar_mem (n : Nat) :
    digitChar n ∈ ['0', '1', '2', '3', '4', '5', '6', '7', '8', '9'] := by
  unfold digitChar
  split_ifs <;> decide

theorem digitChar_good (n : Nat) :
    (digitChar n).isDigit = true ∧ digitChar n ≠ ':' ∧ digitChar n ≠ '시' ∧
      digitChar n ≠ '분' ∧ (digitChar n).isWhitespace = false ∧ digitChar n ≠ '-' ∧
      digitChar n ≠ '+' ∧ digitChar n ≠ '.' := by
  exact (by decide :
    ∀ c ∈ ['0', '1', '2', '3', '4', '5', '6', '7', '8', '9'],
      c.isDigit = true ∧ c ≠ ':' ∧ c ≠ '시' ∧ c ≠ '분' ∧ c.isWhitespace = false ∧
        c ≠ '-' ∧ c ≠ '+' ∧ c ≠ '.') _ (digitChar_mem n)

theorem digitChar_val (n : Nat) (h : n < 10) : (digitChar n).toNat - 48 = n := by
  interval_cases n <;> decide

theorem dropWhile_of_all_false {p : Char → Bool} :
    ∀ l : List Char, (∀ c ∈ l, p c = false) → l.dropWhile p = l
  | [], _ => rfl
  | c :: cs, h => by
    simp [List.dropWhile_cons, h c (List.mem_cons_self ..)]

theorem pyStrip_noop (l : List Char) (h : ∀ c ∈ l, c.isWhitespace = false) :
    pyStrip l = l := by
  unfold pyStrip
  rw [dropWhile_of_all_false l h, dropWhile_of_all_false l.reverse
    (fun c hc => h c (List.mem_reverse.mp hc)), List.reverse_reverse]

theorem splitOnChar_of_not_mem (sep : Char) :
    ∀ l : List Char, (∀ c ∈ l, c ≠ sep) → splitOnChar sep l = [l]
  | [], _ => rfl
  | c :: cs, h => by
    have hrec := splitOnChar_of_not_mem sep cs (fun x hx => h x (List.mem_cons_of_mem _ hx))
    simp [splitOnChar, h c (List.mem_cons_self ..), hrec]

theorem splitOnChar_append_sep (sep : Char) :
    ∀ hs : List Char, ∀ ms : List Char, (∀ c ∈ hs, c ≠ sep) →
      splitOnChar sep (hs ++ sep :: ms) = hs :: splitOnChar sep ms
  | [], ms, _ => by simp [splitOnChar]
  | c :: cs, ms, h => by
    have hrec := splitOnChar_append_sep sep cs ms (fun x hx => h x (List.mem_cons_of_mem _ hx))
    simp [splitOnChar, h c (List.mem_cons_self ..), hrec]

theorem splitOnChar_two (sep : Char) (hs ms : List Char) (h1 : ∀ c ∈ hs, c ≠ sep)
    (h2 : ∀ c ∈ ms, c ≠ sep) : splitOnChar sep (hs ++ sep :: ms) = [hs, ms] := by
  rw [splitOnChar_append_sep sep hs ms h1, splitOnChar_of_not_mem sep ms h2]

theorem parseDigits_render2 (h : Nat) (hh : h < 100) :
    parseDigits (render2 h) = some h := by
  have hd1 := (digitChar_good (h / 10)).1
  have hd2 := (digitChar_good (h % 10)).1
  have hv1 := digitChar_val (h / 10) (by omega)
  have hv2 := digitChar_val (h % 10) (Nat.mod_lt _ (by omega))
  unfold parseDigits render2
  rw [if_pos]
  · unfold natOfDigits
    simp only [List.foldl_cons, List.foldl_nil, Nat.zero_mul, Nat.zero_add, hv1, hv2]
    congr 1
    omega
  · constructor
    · simp
    · simp [List.all_cons, hd1, hd2]

theorem mem_render2 {c : Char} {n : Nat} (hc : c ∈ render2 n) : ∃ k, c = digitChar k := by
  rcases List.mem_cons.mp hc with h | h
  · exact ⟨n / 10, h⟩
  · exact ⟨n % 10, List.mem_singleton.mp h⟩

theorem pyInt_render2 (h : Nat) (hh : h < 100) :
    pyInt (render2 h) = some ((h : Int)) := by
  have hstrip : pyStrip (render2 h) = render2 h :=
    pyStrip_noop _ (by
      intro c hc
      obtain ⟨k, rfl⟩ := mem_render2 hc
      exact (digitChar_good k).2.2.2.2.1)
  unfold pyInt
  rw [hstrip]
  have hr : render2 h = digitChar (h / 10) :: [digitChar (h % 10)] := rfl
  rw [hr]
  simp only [pyIntSigned, if_neg (digitChar_good (h / 10)).2.2.2.2.2.1,
    if_neg (digitChar_good (h / 10)).2.2.2.2.2.2.1]
  rw [← hr, parseDigits_render2 h hh]
  rfl

theorem time_to_minutes_label (h m : Nat) (hh : h < 100) (hm : m < 100) :
    time_to_minutes (timeLabel h m) =
      some ((((if h = 0 then 24 else h) * 60 + m : Nat) : Int)) := by
  have hne : ∀ n : Nat, ∀ c ∈ render2 n, c ≠ ':' := by
    intro n c hc
    obtain ⟨k, rfl⟩ := mem_render2 hc
    exact (digitChar_good k).2.1
  have hsplit : splitOnChar ':' (render2 h ++ ':' :: render2 m) = [render2 h, render2 m] :=
    splitOnChar_two ':' (render2 h) (render2 m) (hne h) (hne m)
  unfold time_to_minutes timeLabel
  simp only [hsplit, pyInt_render2 h hh, pyInt_render2 m hm]
  congr 1
  rcases Nat.eq_zero_or_pos h with h0 | h0
  · subst h0
    rw [if_pos (by omega), if_pos rfl]
    omega
  · rw [if_neg (by omega), if_neg (by omega)]
    omega

/-! ### Claim C1 -/

/-- Claim C1: for every canonical label "HH:MM" (hours below 24, minutes
below 60), `time_to_minutes` returns hour*60+minute with hour treated as 24
when it equals 0 (the label string itself untouched); consequently, over
labels "05:00"-"23:59" the order value is strictly increasing with
wall-clock time, and every label "00:00"-"00:30" gets an order value greater
than that of "23:59". -/
theorem c1_time_order_semantics :
    (∀ h m : Nat, h < 24 → m < 60 →
      time_to_minutes (timeLabel h m) =
        some ((((if h = 0 then 24 else h) * 60 + m : Nat) : Int)))
    ∧ (∀ h₁ m₁ h₂ m₂ : Nat, ∀ o₁ o₂ : Int,
        5 ≤ h₁ → h₁ < 24 → m₁ < 60 → 5 ≤ h₂ → h₂ < 24 → m₂ < 60 →
        h₁ * 60 + m₁ < h₂ * 60 + m₂ →
        time_to_minutes (timeLabel h₁ m₁) = some o₁ →
        time_to_minutes (timeLabel h₂ m₂) = some o₂ → o₁ < o₂)
    ∧ (∀ m : Nat, ∀ o o23 : Int, m ≤ 30 →
        time_to_minutes (timeLabel 0 m) = some o →
        time_to_minutes (timeLabel 23 59) = some o23 → o23 < o) := by
  refine ⟨fun h m hh hm => time_to_minutes_label h m (by omega) (by omega), ?_, ?_⟩
  · intro h₁ m₁ h₂ m₂ o₁ o₂ h5₁ hh₁ hm₁ h5₂ hh₂ hm₂ hlt e₁ e₂
    rw [time_to_minutes_label _ _ (by omega) (by omega), if_neg (by omega)] at e₁
    rw [time_to_minutes_label _ _ (by omega) (by omega), if_neg (by omega)] at e₂
    have := Option.some.inj e₁
    have := Option.some.inj e₂
    omega
  · intro m o o23 hm e₁ e₂
    rw [time_to_minutes_label _ _ (by omega) (by omega), if_pos rfl] at e₁
    rw [time_to_minutes_label _ _ (by omega) (by omega), if_neg (by omega)] at e₂
    have := Option.some.inj e₁
    have := Option.some.inj e₂
    omega

/-- Witness for C1: concrete instantiations of all three components. -/
theorem c1_time_order_semantics_witness :
    time_to_minutes (timeLabel 7 15) =
      some ((((if 7 = 0 then 24 else 7) * 60 + 15 : Nat) : Int))
    ∧ (330 : Int) < 435 ∧ (1439 : Int) < 1470 :=
  ⟨c1_time_order_semantics.1 7 15 (by omega) (by omega),
    c1_time_order_semantics.2.1 5 30 7 15 330 435 (by omega) (by omega) (by omega)
      (by omega) (by omega) (by omega) (by omega) (by decide) (by decide),
    c1_time_order_semantics.2.2 30 1470 1439 (by omega) (by decide) (by decide)⟩

/-! ### Claim C2: header normalization -/

theorem map_noop {f : Char → Char} : ∀ l : List Char, (∀ c ∈ l, f c = c) → l.map f = l
  | [], _ => rfl
  | c :: cs, h => by
    rw [List.map_cons, h c (List.mem_cons_self ..),
      map_noop cs (fun x hx => h x (List.mem_cons_of_mem _ hx))]

theorem filter_noop {p : Char → Bool} : ∀ l : List Char, (∀ c ∈ l, p c = true) → l.filter p = l
  | [], _ => rfl
  | c :: cs, h => by
    rw [List.filter_cons, if_pos (h c (List.mem_cons_self ..)),
      filter_noop cs (fun x hx => h x (List.mem_cons_of_mem _ hx))]

theorem mem_renderNat {c : Char} {n : Nat} (hc : c ∈ renderNat n) : ∃ k, c = digitChar k := by
  unfold renderNat at hc
  split at hc
  · exact ⟨n, List.mem_singleton.mp hc⟩
  · exact mem_render2 hc

theorem zfill2_renderNat (n : Nat) : zfill 2 (renderNat n) = render2 n := by
  unfold renderNat
  split
  · next hlt =>
    have h1 : digitChar n ≠ '-' := (digitChar_good n).2.2.2.2.2.1
    have h2 : digitChar n ≠ '+' := (digitChar_good n).2.2.2.2.2.2.1
    simp only [zfill]
    rw [if_neg (by tauto)]
    show '0' :: [digitChar n] = render2 n
    unfold render2
    rw [Nat.div_eq_of_lt hlt, Nat.mod_eq_of_lt hlt]
    rfl
  · next hge =>
    have h1 : digitChar (n / 10) ≠ '-' := (digitChar_good _).2.2.2.2.2.1
    have h2 : digitChar (n / 10) ≠ '+' := (digitChar_good _).2.2.2.2.2.2.1
    show zfill 2 (digitChar (n / 10) :: [digitChar (n % 10)]) = _
    simp only [zfill]
    rw [if_neg (by tauto)]
    rfl

theorem cleanHeader_mkHeader (h m : Nat) :
    cleanHeader (mkHeader h m) = renderNat h ++ ':' :: renderNat m := by
  have hmapid : ∀ n : Nat, (renderNat n).map (fun c => if c = '시' then ':' else c) = renderNat n := by
    intro n
    apply map_noop
    intro c hc
    obtain ⟨k, rfl⟩ := mem_renderNat hc
    exact if_neg (digitChar_good k).2.2.1
  have hfilid : ∀ n : Nat, (renderNat n).filter (fun c => c != '분') = renderNat n := by
    intro n
    apply filter_noop
    intro c hc
    obtain ⟨k, rfl⟩ := mem_renderNat hc
    exact bne_iff_ne.mpr (digitChar_good k).2.2.2.1
  unfold cleanHeader
  show pyStrip (((renderNat h ++ '시' :: (renderNat m ++ ['분'])).map _).filter _) = _
  rw [List.map_append, List.map_cons, List.map_append, if_pos rfl, hmapid h, hmapid m,
    show (['분'] : List Char).map (fun c => if c = '시' then ':' else c) = ['분'] from by decide,
    List.filter_append, List.filter_cons, List.filter_append, hfilid h, hfilid m,
    show ((':' != '분') = true) from by decide,
    show (['분'] : List Char).filter (fun c => c != '분') = [] from by decide]
  simp only [if_true, List.append_nil]
  apply pyStrip_noop
  intro c hc
  rcases List.mem_append.mp hc with hc | hc
  · obtain ⟨k, rfl⟩ := mem_renderNat hc
    exact (digitChar_good k).2.2.2.2.1
  · rcases List.mem_cons.mp hc with rfl | hc
    · decide
    · obtain ⟨k, rfl⟩ := mem_renderNat hc
      exact (digitChar_good k).2.2.2.2.1

theorem headerLabel_mkHeader (h m : Nat) :
    headerLabel (mkHeader h m) = some (timeLabel h m) := by
  have hne : ∀ n : Nat, ∀ c ∈ renderNat n, c ≠ ':' := by
    intro n c hc
    obtain ⟨k, rfl⟩ := mem_renderNat hc
    exact (digitChar_good k).2.1
  unfold headerLabel
  rw [cleanHeader_mkHeader, splitOnChar_two ':' _ _ (hne h) (hne m)]
  show some (⟨zfill 2 (renderNat h) ++ ':' :: zfill 2 (renderNat m)⟩ : String) = _
  rw [zfill2_renderNat h, zfill2_renderNat m]
  rfl

/-! ### Inversion helpers for the normalizer -/

theorem normStep_eq_some {lr : LongRow} {r : Record} (h : normStep lr = some r) :
    headerLabel lr.time_original = some r.time ∧
    parseCrowding lr.crowding_raw = some r.crowding ∧
    time_to_minutes r.time = some r.time_order ∧
    r.op = lr.op ∧ r.line = lr.line ∧ r.code = lr.code ∧ r.name = lr.name ∧
    r.dir = lr.dir ∧ r.time_original = lr.time_original := by
  unfold normStep at h
  split at h
  · next tl c hhl hpc =>
    split at h
    · next o hto =>
      cases h
      exact ⟨hhl, hpc, hto, rfl, rfl, rfl, rfl, rfl, rfl⟩
    · cases h
  · cases h

theorem mem_normRows {t : RawTable} {r : Record} (h : r ∈ normRows t) :
    ∃ lr, lr ∈ meltRows t ∧ normStep lr = some r := by
  exact List.mem_filterMap.mp h

theorem load_data_eq_some {t : RawTable} {rs : List Record} (h : load_data t = some rs) :
    rs = normRows t := by
  simp only [load_data] at h
  split at h
  · cases h
  · cases h
    rfl

/-! ### Claim C2 -/

/-- Claim C2: a time-bucket column header of the shape "<hour>시<minute>분"
normalizes to the zero-padded "HH:MM" label; a header whose cleaned form does
not split into exactly an hour part and a minute part gets no label, and no
canonical record carries it as `time_original` (its melted rows are dropped
without failing the load). -/
theorem c2_header_normalization :
    (∀ h m : Nat, h < 100 → m < 100 → headerLabel (mkHeader h m) = some (timeLabel h m))
    ∧ (∀ t : RawTable, ∀ col : String, ∀ r : Record,
        headerLabel col = none → r ∈ normRows t → r.time_original ≠ col) := by
  refine ⟨fun h m _ _ => headerLabel_mkHeader h m, ?_⟩
  intro t col r hnone hr hcol
  obtain ⟨lr, -, hstep⟩ := mem_normRows hr
  obtain ⟨hhl, -, -, -, -, -, -, -, hto⟩ := normStep_eq_some hstep
  have hlab : headerLabel col = some r.time := by
    rw [← hcol]
    rw [hto] at hcol ⊢
    exact hhl
  rw [hnone] at hlab
  cases hlab

/-- Witness for C2 at concrete inputs. -/
theorem c2_header_normalization_witness :
    headerLabel (mkHeader 5 30) = some (timeLabel 5 30)
    ∧ headerLabel "비고" = none ∧ c2rec ∈ normRows c2table
    ∧ c2rec.time_original ≠ "비고" :=
  ⟨c2_header_normalization.1 5 30 (by omega) (by omega), by decide, by decide,
    c2_header_normalization.2 c2table "비고" c2rec (by decide) (by decide)⟩

/-! ### Claim C6 -/

/-- Claim C6: a long row whose crowding cell does not parse (after stripping
whitespace and removing comma separators) yields no canonical record — it is
dropped, never coerced to zero — and every canonical record's `crowding` is
exactly the parsed value of its raw cell. -/
theorem c6_unparseable_dropped (t : RawTable) :
    (∀ lr ∈ meltRows t, parseCrowding lr.crowding_raw = none → normStep lr = none)
    ∧ (∀ r ∈ normRows t, ∃ lr, lr ∈ meltRows t ∧ normStep lr = some r ∧
        parseCrowding lr.crowding_raw = some r.crowding) := by
  constructor
  · intro lr _ hnone
    unfold normStep
    split
    · next tl c hhl hpc =>
      rw [hnone] at hpc
      cases hpc
    · rfl
  · intro r hr
    obtain ⟨lr, hmem, hstep⟩ := mem_normRows hr
    exact ⟨lr, hmem, hstep, (normStep_eq_some hstep).2.1⟩

/-- Witness for C6 at concrete inputs. -/
theorem c6_unparseable_dropped_witness :
    normStep c6lrBad = none ∧ c6lrBad ∈ meltRows c6table
    ∧ c6rec ∈ normRows c6table ∧ parseCrowding "23" = some c6rec.crowding :=
  ⟨(c6_unparseable_dropped c6table).1 c6lrBad (by decide) (by decide),
    by decide, by decide, by decide⟩

/-- Counterexample to claim C9 as stated: the normalizer keeps any parseable
reading, so a raw cell "-5" survives with crowding -5 < 0; non-negativity of
canonical records is not enforced by the code. -/
theorem c9_nonneg_counterexample :
    (normRows c9table).map (fun r => r.crowding) = [mkRat (-5) 1]
    ∧ ¬ (∀ r ∈ normRows c9table, 0 ≤ r.crowding) := by
  constructor
  · decide
  · decide

/-- Amended claim C9: every canonical record's crowding is the parsed value
of its raw cell, so all records are non-negative whenever every parseable
raw reading in the table is non-negative (the normalizer itself never makes
a value negative, but does not reject negative readings). -/
theorem c9_nonneg_amended (t : RawTable)
    (hpos : ∀ lr ∈ meltRows t, ∀ q : Rat, parseCrowding lr.crowding_raw = some q → 0 ≤ q) :
    ∀ r ∈ normRows t, 0 ≤ r.crowding := by
  intro r hr
  obtain ⟨lr, hmem, hstep⟩ := mem_normRows hr
  exact hpos lr hmem r.crowding (normStep_eq_some hstep).2.1

/-- Witness for the amended C9 at a concrete input. -/
theorem c9_nonneg_amended_witness : (0 : Rat) ≤ c9posRec.crowding :=
  c9_nonneg_amended c9posTable (by decide) c9posRec (by decide)

/-! ### Claim C7 -/

/-- Claim C7: when no rows survive normalization the load reports the
empty-dataset error and returns no frame; a successful load never returns an
empty canonical dataset. -/
theorem c7_empty_dataset_error (t : RawTable) :
    (normRows t = [] → load_data t = none ∧ app_load t = .emptyDataError)
    ∧ (∀ rs : List Record, load_data t = some rs → rs ≠ []) := by
  constructor
  · intro hempty
    have h1 : load_data t = none := by
      unfold load_data
      rw [hempty]
      rfl
    refine ⟨h1, ?_⟩
    unfold app_load
    rw [h1]
  · intro rs hrs
    simp only [load_data] at hrs
    split at hrs
    · cases hrs
    · next hne =>
      cases hrs
      intro h0
      rw [h0] at hne
      exact hne rfl

/-- Witness for C7 at a concrete input. -/
theorem c7_empty_dataset_error_witness :
    normRows c7table = [] ∧ load_data c7table = none ∧ app_load c7table = .emptyDataError :=
  ⟨by decide, (c7_empty_dataset_error c7table).1 (by decide)⟩

/-- Counterexample to claim C5 as stated: a raw table with fewer than 6
columns makes the load fail through the empty-dataset error (no time-bucket
columns, hence zero surviving rows), not through the schema error; the app's
minimum-column check inspects the reshaped frame and cannot fire. -/
theorem c5_schema_counterexample :
    app_load c5table = .emptyDataError ∧ app_load c5table ≠ .schemaError := by
  constructor
  · decide
  · decide

/-- Amended claim C5: loading a raw table with fewer than 6 columns always
fails and produces no canonical dataset, but the failure is the
empty-dataset error rather than a distinct schema error. -/
theorem c5_schema_amended (t : RawTable) (hcols : t.cols.length < 6) :
    load_data t = none ∧ app_load t = .emptyDataError := by
  have hdrop : (t.cols.map stripStr).drop 5 = [] := by
    apply List.drop_eq_nil_of_le
    rw [List.length_map]
    omega
  have hmelt : meltRows t = [] := by
    unfold meltRows
    rw [hdrop]
    rfl
  have hnorm : normRows t = [] := by
    unfold normRows
    rw [hmelt]
    rfl
  have h1 : load_data t = none := by
    unfold load_data
    rw [hnorm]
    rfl
  refine ⟨h1, ?_⟩
  unfold app_load
  rw [h1]

/-- Witness for the amended C5 at a concrete input. -/
theorem c5_schema_amended_witness :
    load_data c5table = none ∧ app_load c5table = .emptyDataError :=
  c5_schema_amended c5table (by decide)

/-! ### Claim C10 -/

/-- Claim C10: in any successfully loaded canonical dataset, records with
equal `time` labels have equal `time_order` — the order key is a function of
the label alone, so resolving a time bound from the first record carrying a
label does not depend on which matching record comes first. -/
theorem c10_order_function_of_label (t : RawTable) (rs : List Record)
    (hload : load_data t = some rs) (r₁ r₂ : Record) (h₁ : r₁ ∈ rs) (h₂ : r₂ ∈ rs)
    (ht : r₁.time = r₂.time) : r₁.time_order = r₂.time_order := by
  cases load_data_eq_some hload
  obtain ⟨lr₁, -, hs₁⟩ := mem_normRows h₁
  obtain ⟨lr₂, -, hs₂⟩ := mem_normRows h₂
  have e₁ := (normStep_eq_some hs₁).2.2.1
  have e₂ := (normStep_eq_some hs₂).2.2.1
  rw [ht] at e₁
  rw [e₁] at e₂
  exact Option.some.inj e₂

/-- Witness for C10 at a concrete input. -/
theorem c10_order_function_of_label_witness : c10recA.time_order = c10recB.time_order :=
  c10_order_function_of_label c10table (normRows c10table) (by decide) c10recA c10recB
    (by decide) (by decide) (by decide)

theorem lineFilter_nil (lineQ : Option String) : lineFilter [] lineQ = [] := by
  cases lineQ with
  | none => rfl
  | some l =>
    simp only [lineFilter]
    split
    · rfl
    · rw [List.filter_nil]

theorem dirFilter_nil (dirQ : Option String) : dirFilter [] dirQ = [] := by
  cases dirQ with
  | none => rfl
  | some d =>
    simp only [dirFilter]
    split
    · rfl
    · rw [List.filter_nil]

theorem lineDirFilter_nil (lineQ dirQ : Option String) : lineDirFilter [] lineQ dirQ = [] := by
  unfold lineDirFilter
  rw [lineFilter_nil, dirFilter_nil]

/-! ### Claim C8 (corrected) -/

/-- Amended claim C8: when the start or the end label has no matching record
in the line-and-direction-filtered subset, the time restriction is skipped
entirely and exactly that subset is returned — silently: the filter reports
no warning (the flag is false); when both labels resolve, records with
`time_order` between the two resolved bounds, inclusive, are kept. -/
theorem c8_time_filter (rs : List Record) (lineQ dirQ : Option String) (s e : String) :
    (((lineDirFilter rs lineQ dirQ).find? (fun r => r.time == s) = none ∨
        (lineDirFilter rs lineQ dirQ).find? (fun r => r.time == e) = none) →
      get_filtered_data rs lineQ dirQ (some (s, e)) = (lineDirFilter rs lineQ dirQ, false))
    ∧ (∀ rStart rEnd : Record,
        (lineDirFilter rs lineQ dirQ).find? (fun r => r.time == s) = some rStart →
        (lineDirFilter rs lineQ dirQ).find? (fun r => r.time == e) = some rEnd →
        get_filtered_data rs lineQ dirQ (some (s, e)) =
          ((lineDirFilter rs lineQ dirQ).filter (fun r =>
              decide (rStart.time_order ≤ r.time_order) &&
                decide (r.time_order ≤ rEnd.time_order)), false)) := by
  by_cases hemp : rs.isEmpty
  · have hrs : rs = [] := List.isEmpty_iff.mp hemp
    subst hrs
    rw [lineDirFilter_nil]
    constructor
    · intro _
      rfl
    · intro rStart rEnd hS _
      rw [List.find?_nil] at hS
      cases hS
  · constructor
    · intro h
      simp only [get_filtered_data, if_neg hemp]
      by_cases hsubemp : (lineDirFilter rs lineQ dirQ).isEmpty
      · rw [if_pos hsubemp]
      · rw [if_neg hsubemp]
        rcases h with h | h
        · rcases hE : (lineDirFilter rs lineQ dirQ).find? (fun r => r.time == e) with _ | rE <;>
            rw [h, hE]
        · rcases hS : (lineDirFilter rs lineQ dirQ).find? (fun r => r.time == s) with _ | rS <;>
            rw [hS, h]
    · intro rStart rEnd hS hE
      simp only [get_filtered_data, if_neg hemp]
      have hsub : ¬ (lineDirFilter rs lineQ dirQ).isEmpty = true := by
        intro hy
        rw [List.isEmpty_iff.mp hy, List.find?_nil] at hS
        cases hS
      rw [if_neg hsub, hS, hE]

/-- Counterexample to claim C8 as stated: the claim says a warning is
reported when a bound label is absent; the filter skips the time restriction
and returns the line-and-direction subset, but silently — no warning is
reported (the source function contains no warning call). -/
theorem c8_warning_counterexample :
    get_filtered_data c8data (some "1호선") (some "전체") (some ("99:99", "06:00"))
      = (c8data, false)
    ∧ ¬ (get_filtered_data c8data (some "1호선") (some "전체") (some ("99:99", "06:00"))).2 = true := by
  constructor
  · decide
  · decide

/-- Witness for the amended C8: one skipped range (absent start label) and
one fully resolved inclusive range. -/
theorem c8_time_filter_witness :
    get_filtered_data c8data (some "1호선") (some "전체") (some ("99:99", "06:00"))
      = (lineDirFilter c8data (some "1호선") (some "전체"), false)
    ∧ get_filtered_data c8data (some "1호선") (some "전체") (some ("05:30", "06:00"))
      = ((lineDirFilter c8data (some "1호선") (some "전체")).filter (fun r =>
          decide (c8recA.time_order ≤ r.time_order) &&
            decide (r.time_order ≤ c8recB.time_order)), false) :=
  ⟨(c8_time_filter c8data (some "1호선") (some "전체") "99:99" "06:00").1 (Or.inl (by decide)),
    (c8_time_filter c8data (some "1호선") (some "전체") "05:30" "06:00").2 c8recA c8recB
      (by decide) (by decide)⟩

/-- Counterexample to claim C3 as stated: with two groups tied on peak, the
first-encountered group "AAA" receives rank 2, not rank 1.  The groups are
pre-sorted by key ("AAA" before "BBB") and `sort_values` reverses an
ascending argsort — at this size the underlying sort is in its stable
insertion-sort regime, so the reversal puts "BBB" first.  Tied ranks are
therefore not assigned by first-encountered group order. -/
theorem c3_tie_break_counterexample :
    (normRows c3table).map (fun r => r.name) = ["AAA", "BBB"]
    ∧ (normRows c3table).map (fun r => r.crowding) = [mkRat 10 1, mkRat 10 1]
    ∧ (calculate_ranking (normRows c3table) 2).map (fun e => (e.rank, e.name)) =
        [(1, "BBB"), (2, "AAA")] := by
  refine ⟨by decide, by decide, by decide⟩

/-! ### Structure of the ranking output -/

theorem mem_addRanks : ∀ (i : Nat) (l : List RankRow) (e : RankedRow),
    e ∈ addRanks i l → e.toRankRow ∈ l
  | _, [], _, h => by cases h
  | i, r :: l, e, h => by
    rcases List.mem_cons.mp h with rfl | h
    · exact List.mem_cons_self ..
    · exact List.mem_cons_of_mem _ (mem_addRanks (i + 1) l e h)

theorem addRanks_map_rank : ∀ (i : Nat) (l : List RankRow),
    (addRanks i l).map (fun e => e.rank) = List.range' i l.length
  | _, [] => rfl
  | i, r :: l => by
    simp only [addRanks, List.map_cons, List.length_cons, List.range'_succ]
    rw [addRanks_map_rank (i + 1) l]

theorem addRanks_pairwise {R : RankRow → RankRow → Prop} :
    ∀ (i : Nat) (l : List RankRow), l.Pairwise R →
      (addRanks i l).Pairwise (fun a b => R a.toRankRow b.toRankRow)
  | _, [], _ => List.Pairwise.nil
  | i, r :: l, h => by
    refine List.pairwise_cons.mpr
      ⟨?_, addRanks_pairwise (i + 1) l (List.pairwise_cons.mp h).2⟩
    intro b hb
    exact (List.pairwise_cons.mp h).1 b.toRankRow (mem_addRanks (i + 1) l b hb)

/-! ### Claim C3 (corrected): amended theorem -/

/-- Amended claim C3: for `top_n = k` over a non-empty subset with at least
`k` groups, the ranking is sorted by peak descending, truncated to the
first `k` groups, and carries ranks exactly 1..k with no gaps or repeats.
The order among equal peaks is implementation-defined — the source's
underlying sort is not stable — and in particular is not first-encountered
group order.  The second conjunct states the same rank and order guarantees
for every realization of the descending sort, i.e. for every
peak-descending permutation of the aggregated group rows, so neither
conclusion depends on the tie order the embedding happens to realize. -/
theorem c3_rank_density_and_order (rs : List Record) (k : Nat)
    (hk : k ≤ (groupKeys rs).length) (hne : rs ≠ []) :
    ((calculate_ranking rs k).map (fun e => e.rank) = List.range' 1 k
      ∧ (calculate_ranking rs k).Pairwise (fun a b => b.peak ≤ a.peak))
    ∧ (∀ sortedRows : List RankRow,
        sortedRows.Perm ((groupKeys rs).map (mkRankRow rs)) →
        sortedRows.Pairwise (fun a b => b.peak ≤ a.peak) →
        (addRanks 1 (sortedRows.take k)).map (fun e => e.rank) = List.range' 1 k
          ∧ (addRanks 1 (sortedRows.take k)).Pairwise (fun a b => b.peak ≤ a.peak)) := by
  have hgen : ∀ sortedRows : List RankRow,
      sortedRows.Perm ((groupKeys rs).map (mkRankRow rs)) →
      sortedRows.Pairwise (fun a b => b.peak ≤ a.peak) →
      (addRanks 1 (sortedRows.take k)).map (fun e => e.rank) = List.range' 1 k
        ∧ (addRanks 1 (sortedRows.take k)).Pairwise (fun a b => b.peak ≤ a.peak) := by
    intro sortedRows hperm hsorted
    constructor
    · rw [addRanks_map_rank]
      congr 1
      rw [List.length_take, hperm.length_eq, List.length_map]
      omega
    · exact @addRanks_pairwise (fun x y => y.peak ≤ x.peak) 1 _
        (List.Pairwise.sublist (List.take_sublist _ _) hsorted)
  refine ⟨?_, hgen⟩
  have hemp : ¬ rs.isEmpty = true := fun hy => hne (List.isEmpty_iff.mp hy)
  have hcr : calculate_ranking rs k =
      addRanks 1 (((((groupKeys rs).map (mkRankRow rs)).insertionSort peakLe).reverse).take k) := by
    unfold calculate_ranking
    rw [if_neg hemp]
  rw [hcr]
  apply hgen
  · exact (List.reverse_perm _).trans (List.perm_insertionSort peakLe _)
  · haveI : IsTotal RankRow peakLe := ⟨fun a b => le_total a.peak b.peak⟩
    haveI : IsTrans RankRow peakLe := ⟨fun _ _ _ h₁ h₂ => le_trans h₁ h₂⟩
    rw [List.pairwise_reverse]
    exact List.sorted_insertionSort peakLe _

/-- Witness for the amended C3 at a concrete input. -/
theorem c3_rank_density_and_order_witness :
    (calculate_ranking (normRows c3wtable) 2).map (fun e => e.rank) = List.range' 1 2
    ∧ (calculate_ranking (normRows c3wtable) 2).Pairwise (fun a b => b.peak ≤ a.peak) :=
  (c3_rank_density_and_order (normRows c3wtable) 2 (by decide) (by decide)).1

/-- Counterexample to claim C4 as stated.  First conjunct pair: with two
rows tied for the group maximum, `peak_time` is the tied row that comes
first in frame order ("23:00", `time_order` 1380), not the one with the
smallest `time_order` ("07:00", 420).  Second conjunct pair: when two codes
share a station name and direction, the group (code "1") gets `peak_time`
"07:00" from the other code's higher-crowding row — the label of no row of
the group attaining the group's own maximum 11 (attained only at "08:00"). -/
theorem c4_peak_time_counterexample :
    (normRows c4table).map (fun r => (r.time, r.time_order, r.crowding)) =
        [("23:00", 1380, mkRat 50 1), ("07:00", 420, mkRat 50 1)]
    ∧ (calculate_ranking (normRows c4table) 1).map (fun e => e.peak_time) = [some "23:00"]
    ∧ (normRows c4btable).map (fun r => (r.code, r.time, r.crowding)) =
        [("1", "07:00", mkRat 10 1), ("2", "07:00", mkRat 99 1),
         ("1", "08:00", mkRat 11 1), ("2", "08:00", mkRat 5 1)]
    ∧ (calculate_ranking (normRows c4btable) 2).map (fun e => (e.rank, e.code, e.peak, e.peak_time)) =
        [(1, "2", mkRat 99 1, some "07:00"), (2, "1", mkRat 11 1, some "07:00")] := by
  refine ⟨by decide, by decide, by decide, by decide⟩

/-! ### Claim C4 (corrected): amended theorem -/

theorem foldl_max_attained : ∀ (l : List Record) (a : Rat),
    l.foldl (fun acc x => max acc x.crowding) a = a ∨
      ∃ r ∈ l, l.foldl (fun acc x => max acc x.crowding) a = r.crowding
  | [], _ => Or.inl rfl
  | x :: l, a => by
    simp only [List.foldl_cons]
    rcases foldl_max_attained l (max a x.crowding) with h | ⟨r, hr, h⟩
    · rcases max_choice a x.crowding with hm | hm
      · exact Or.inl (by rw [h, hm])
      · exact Or.inr ⟨x, List.mem_cons_self .., by rw [h, hm]⟩
    · exact Or.inr ⟨r, List.mem_cons_of_mem _ hr, h⟩

theorem crowdMax_attained {l : List Record} (h : l ≠ []) :
    ∃ r ∈ l, r.crowding = crowdMax l := by
  cases l with
  | nil => exact absurd rfl h
  | cons x l =>
    unfold crowdMax
    rcases foldl_max_attained l x.crowding with h0 | ⟨r, hr, hh⟩
    · exact ⟨x, List.mem_cons_self .., h0.symm⟩
    · exact ⟨r, List.mem_cons_of_mem _ hr, hh.symm⟩

theorem find?_decomp {p : Record → Bool} :
    ∀ {l : List Record} {a : Record}, l.find? p = some a →
      ∃ pre post, l = pre ++ a :: post ∧ (∀ x ∈ pre, p x = false) ∧ p a = true
  | [], _, h => by cases h
  | b :: l, a, h => by
    cases hp : p b with
    | true =>
      rw [List.find?_cons_of_pos _ hp] at h
      cases h
      exact ⟨[], l, rfl, fun x hx => absurd hx (List.not_mem_nil _), hp⟩
    | false =>
      rw [List.find?_cons_of_neg _ (by simp [hp])] at h
      obtain ⟨pre, post, heq, hpre, hpa⟩ := find?_decomp h
      refine ⟨b :: pre, post, by rw [heq]; rfl, ?_, hpa⟩
      intro x hx
      rcases List.mem_cons.mp hx with rfl | hx
      · exact hp
      · exact hpre x hx

theorem mem_calculate_ranking {rs : List Record} {n : Nat} {e : RankedRow}
    (h : e ∈ calculate_ranking rs n) :
    ∃ k, k ∈ groupKeys rs ∧ e.toRankRow = mkRankRow rs k := by
  unfold calculate_ranking at h
  split at h
  · cases h
  · have h1 := mem_addRanks _ _ _ h
    have h2 := (List.take_sublist _ _).subset h1
    rw [List.mem_reverse] at h2
    have h3 := (List.perm_insertionSort peakLe _).subset h2
    obtain ⟨k, hk, he⟩ := List.mem_map.mp h3
    exact ⟨k, hk, he.symm⟩

theorem mem_groupKeys {rs : List Record} {k : String × String × String}
    (h : k ∈ groupKeys rs) : ∃ r, r ∈ rs ∧ keyOf r = k := by
  unfold groupKeys at h
  have h2 := (List.perm_insertionSort keyLe _).subset h
  rw [List.mem_dedup] at h2
  exact List.mem_map.mp h2

/-- Amended claim C4: every entry of the ranking is the aggregation of its
(station_name, station_code, direction) key, and for each group key,
`peak_time` is the time label of the first row — in the subset's frame
order — attaining the maximum crowding over the rows matching the group's
station name and direction (station code is not part of the lookup).  When
that lookup set is chronologically ordered by `time_order`, this row is the
tied maximum with the smallest `time_order`; determinism relative to frame
order, not time order, is what the code provides. -/
theorem c4_peak_time_first_max (rs : List Record) :
    (∀ (n : Nat) (e : RankedRow), e ∈ calculate_ranking rs n →
      e.toRankRow = mkRankRow rs (rrKey e.toRankRow) ∧ rrKey e.toRankRow ∈ groupKeys rs)
    ∧ (∀ k : String × String × String, k ∈ groupKeys rs →
        (matchSet rs k.1 k.2.2).Pairwise (fun a b => a.time_order < b.time_order) →
        ∃ r ∈ matchSet rs k.1 k.2.2,
          (mkRankRow rs k).peak_time = some r.time ∧
          r.crowding = crowdMax (matchSet rs k.1 k.2.2) ∧
          ∀ q ∈ matchSet rs k.1 k.2.2, q.crowding = crowdMax (matchSet rs k.1 k.2.2) →
            r.time_order ≤ q.time_order) := by
  constructor
  · intro n e he
    obtain ⟨k, hk, hrow⟩ := mem_calculate_ranking he
    obtain ⟨k1, k2, k3⟩ := k
    have hkey : rrKey e.toRankRow = (k1, k2, k3) := by
      rw [hrow]
      rfl
    rw [hkey, ← hrow]
    exact ⟨rfl, hkey ▸ hk⟩
  · intro k hk hchron
    obtain ⟨r0, hr0, hkey⟩ := mem_groupKeys hk
    have hr0m : r0 ∈ matchSet rs k.1 k.2.2 := by
      unfold matchSet
      rw [List.mem_filter]
      refine ⟨hr0, ?_⟩
      rw [← hkey]
      simp [keyOf]
    have hne : matchSet rs k.1 k.2.2 ≠ [] := by
      intro h0
      rw [h0] at hr0m
      exact List.not_mem_nil _ hr0m
    obtain ⟨rmax, hrmax, hmaxeq⟩ := crowdMax_attained hne
    cases hfind : (matchSet rs k.1 k.2.2).find?
        (fun r => decide (r.crowding = crowdMax (matchSet rs k.1 k.2.2))) with
    | none =>
      exfalso
      exact (List.find?_eq_none.mp hfind rmax hrmax) (decide_eq_true hmaxeq)
    | some rf =>
      have hft : firstMaxTime (matchSet rs k.1 k.2.2) = some rf.time := by
        rcases hms : matchSet rs k.1 k.2.2 with _ | ⟨x, l⟩
        · exact absurd hms hne
        · rw [hms] at hfind
          simp only [firstMaxTime]
          rw [hfind]
          rfl
      have hmem := List.mem_of_find?_eq_some hfind
      have hfp := List.find?_some hfind
      simp only [decide_eq_true_eq] at hfp
      refine ⟨rf, hmem, hft, hfp, ?_⟩
      intro q hq hqmax
      obtain ⟨pre, post, heq, hpre, -⟩ := find?_decomp hfind
      rw [heq] at hq
      rcases List.mem_append.mp hq with hqpre | hqrest
      · exfalso
        have hfalse := hpre q hqpre
        rw [decide_eq_true hqmax] at hfalse
        exact Bool.noConfusion hfalse
      · rcases List.mem_cons.mp hqrest with rfl | hqpost
        · exact le_refl _
        · rw [heq] at hchron
          have hp2 := (List.pairwise_append.mp hchron).2.1
          exact le_of_lt ((List.pairwise_cons.mp hp2).1 q hqpost)

/-- Witness for the amended C4 at a concrete input. -/
theorem c4_peak_time_first_max_witness :
    ("A", "150", "상행") ∈ groupKeys (normRows c4wtable)
    ∧ (matchSet (normRows c4wtable) "A" "상행").Pairwise
        (fun a b => a.time_order < b.time_order)
    ∧ ∃ r ∈ matchSet (normRows c4wtable) "A" "상행",
        (mkRankRow (normRows c4wtable) ("A", "150", "상행")).peak_time = some r.time ∧
        r.crowding = crowdMax (matchSet (normRows c4wtable) "A" "상행") ∧
        ∀ q ∈ matchSet (normRows c4wtable) "A" "상행",
          q.crowding = crowdMax (matchSet (normRows c4wtable) "A" "상행") →
            r.time_order ≤ q.time_order :=
  ⟨by decide, by decide,
    (c4_peak_time_first_max (normRows c4wtable)).2 ("A", "150", "상행") (by decide) (by decide)⟩
